import Mathlib

/-!
Verification of the dev-connect backend's bid/award workflow.

Shallow embedding of `src/routes/Bids.js` (handlers `POST /bids/place` and
`PUT /bids/:id/status`) over the Mongoose models `Bid` and `Project`
(`src/unnamed/part_000`).  The persistent store is a pair of lists; each
handler is a pure function from a state and request parameters to an HTTP
status code and the updated state.
-/

namespace DevConnect

/-- `models/Project.js`: the fields the award workflow reads or writes.
`status` ranges over `"open" | "in progress" | "completed"`;
`assignedTo` defaults to `null` (`none`). -/
structure Project where
  id : Nat
  createdBy : Nat
  status : String
  assignedTo : Option Nat
deriving DecidableEq

/-- `models/Bid.js`: the fields the award workflow reads or writes.
`status` ranges over `"pending" | "accepted" | "rejected"`. -/
structure Bid where
  id : Nat
  projectId : Nat
  developerId : Nat
  status : String
deriving DecidableEq

/-- The document store: the `projects` and `bids` collections. -/
structure St where
  projects : List Project
  bids : List Bid
deriving DecidableEq

/-- `Project.findById(pid)`. -/
def findProject (st : St) (pid : Nat) : Option Project :=
  st.projects.find? (fun p => p.id == pid)

/-- `Bid.findById(bidId)`. -/
def findBid (st : St) (bidId : Nat) : Option Bid :=
  st.bids.find? (fun b => b.id == bidId)

/-- `bid.status = status; await bid.save()` — update-by-id on the bids
collection. -/
def updateBidStatus (l : List Bid) (bidId : Nat) (s : String) : List Bid :=
  l.map (fun b => if b.id == bidId then { b with status := s } else b)

/-- `Project.findByIdAndUpdate(pid, { status: 'in progress', assignedTo: dev })`. -/
def updateProjectAssign (l : List Project) (pid devId : Nat) : List Project :=
  l.map (fun p => if p.id == pid
    then { p with status := "in progress", assignedTo := some devId } else p)

/-- `Bid.updateMany({ projectId: pid, _id: { $ne: bidId }, status: 'pending' },
{ status: 'rejected' })`. -/
def rejectPendingSiblings (l : List Bid) (pid bidId : Nat) : List Bid :=
  l.map (fun b =>
    if b.projectId == pid && !(b.id == bidId) && b.status == "pending"
    then { b with status := "rejected" } else b)

/-- `POST /bids/place` (`routes/Bids.js` lines 30-103): checks, in order,
project existence (404), project open (400), duplicate bid by the same
developer (409); otherwise persists one new pending bid (201).  `newId` is
the store-generated id of the created document. -/
def placeBid (st : St) (projectId developerId newId : Nat) : Nat × St :=
  match findProject st projectId with
  | none => (404, st)
  | some p =>
    if p.status ≠ "open" then (400, st)
    else
      match st.bids.find? (fun b =>
          b.projectId == projectId && b.developerId == developerId) with
      | some _ => (409, st)
      | none =>
        (201, { st with bids := st.bids ++
          [{ id := newId, projectId := projectId,
             developerId := developerId, status := "pending" }] })

/-- `PUT /bids/:id/status` (`routes/Bids.js` lines 158-224): validates the
decision string (400), looks up the bid (404); `.populate('projectId')` on a
dangling reference yields `null`, so `bid.projectId.createdBy` throws and the
handler answers 500; ownership mismatch answers 403.  Otherwise the bid's
status is overwritten, and on `accepted` the project is assigned and the
pending sibling bids are rejected (200). -/
def decideBid (st : St) (bidId requesterId : Nat) (decision : String) :
    Nat × St :=
  if decision = "accepted" ∨ decision = "rejected" then
    match findBid st bidId with
    | none => (404, st)
    | some bid =>
      match findProject st bid.projectId with
      | none => (500, st)
      | some proj =>
        if proj.createdBy ≠ requesterId then (403, st)
        else
          let bids1 := updateBidStatus st.bids bidId decision
          if decision = "accepted" then
            (200, { projects :=
                      updateProjectAssign st.projects bid.projectId
                        bid.developerId,
                    bids := rejectPendingSiblings bids1 bid.projectId bidId })
          else (200, { st with bids := bids1 })
  else (400, st)

/-- The accepted bids referencing project `pid`. -/
def acceptedBidsFor (st : St) (pid : Nat) : List Bid :=
  st.bids.filter (fun b => b.projectId == pid && b.status == "accepted")

/-- States reachable through the HTTP surface: an initial store holds only
freshly created projects (`status = "open"`, `assignedTo = null`, distinct
ids) and no bids; each later state is produced by a successful `placeBid`
(with a fresh document id) or a successful `decideBid`. -/
inductive Reachable : St → Prop where
  | init (ps : List Project) :
      (∀ p ∈ ps, p.status = "open" ∧ p.assignedTo = none) →
      (ps.map Project.id).Nodup → Reachable ⟨ps, []⟩
  | placeStep {st st' : St} (pid did nid : Nat) :
      Reachable st → (∀ b ∈ st.bids, b.id ≠ nid) →
      placeBid st pid did nid = (201, st') → Reachable st'
  | decideStep {st st' : St} (bidId uid : Nat) (d : String) :
      Reachable st → decideBid st bidId uid d = (200, st') → Reachable st'

/-! Concrete states: project 1 owned by user 10; developers 20 and 21 place
bids 100 and 101; the owner accepts bid 100 and then accepts bid 101. -/

/-- Fresh project 1 owned by user 10. -/
def st0 : St := ⟨[⟨1, 10, "open", none⟩], []⟩

/-- After developer 20 places bid 100. -/
def st1 : St := ⟨[⟨1, 10, "open", none⟩], [⟨100, 1, 20, "pending"⟩]⟩

/-- After developer 21 places bid 101. -/
def st2 : St := ⟨[⟨1, 10, "open", none⟩],
  [⟨100, 1, 20, "pending"⟩, ⟨101, 1, 21, "pending"⟩]⟩

/-- After owner 10 accepts bid 100: project assigned to 20, bid 101
rejected. -/
def st3 : St := ⟨[⟨1, 10, "in progress", some 20⟩],
  [⟨100, 1, 20, "accepted"⟩, ⟨101, 1, 21, "rejected"⟩]⟩

/-- After owner 10 then accepts bid 101 as well: both bids accepted. -/
def badState : St := ⟨[⟨1, 10, "in progress", some 21⟩],
  [⟨100, 1, 20, "accepted"⟩, ⟨101, 1, 21, "accepted"⟩]⟩

/-- Project 1 open, three pending bids (100, 101, 102) and one already
rejected bid (103). -/
def stW3 : St := ⟨[⟨1, 10, "open", none⟩],
  [⟨100, 1, 20, "pending"⟩, ⟨101, 1, 21, "pending"⟩,
   ⟨102, 1, 22, "pending"⟩, ⟨103, 1, 23, "rejected"⟩]⟩

/-- Project 1 already assigned to developer 20 with bid 100 accepted. -/
def cst5 : St := ⟨[⟨1, 10, "in progress", some 20⟩],
  [⟨100, 1, 20, "accepted"⟩]⟩

/-- A bid whose `projectId` references no stored project. -/
def stC6 : St := ⟨[], [⟨100, 1, 20, "pending"⟩]⟩

/-- A completed (non-open) project on which developer 20 already holds a
bid. -/
def wst10 : St := ⟨[⟨1, 10, "completed", none⟩], [⟨100, 1, 20, "pending"⟩]⟩

/-! Generic lemmas about `find?` on keyed lists. -/

/-- `find?` by key commutes with mapping a key-preserving update over the
list. -/
theorem find?_map_key {α : Type} (key : α → Nat) (f : α → α)
    (hf : ∀ a, key (f a) = key a) (l : List α) (i : Nat) :
    (l.map f).find? (fun x => key x == i) =
      Option.map f (l.find? (fun x => key x == i)) := by
  induction l with
  | nil => rfl
  | cons a t ih =>
    rw [List.map_cons]
    by_cases h : (key a == i) = true
    · rw [List.find?_cons_of_pos (p := fun x => key x == i) _
          (by simpa [hf] using h),
        List.find?_cons_of_pos (p := fun x => key x == i) _ h]
      rfl
    · rw [List.find?_cons_of_neg (p := fun x => key x == i) _
          (by simpa [hf] using h),
        List.find?_cons_of_neg (p := fun x => key x == i) _ h, ih]

/-- In a list with pairwise-distinct keys, `find?` by a member's key returns
that member. -/
theorem find?_key_of_mem_nodup {α : Type} (key : α → Nat) {l : List α}
    {a : α} (ha : a ∈ l) (hnd : (l.map key).Nodup) :
    l.find? (fun x => key x == key a) = some a := by
  induction l with
  | nil => cases ha
  | cons b t ih =>
    rw [List.map_cons, List.nodup_cons] at hnd
    rcases List.mem_cons.mp ha with rfl | h
    · exact List.find?_cons_of_pos _ (by simp)
    · have hne : key b ≠ key a := fun he =>
        hnd.1 (he ▸ List.mem_map_of_mem key h)
      rw [List.find?_cons_of_neg _ (by simpa using hne), ih h hnd.2]

/-- Looking up a bid id in a bids list after `updateBidStatus`. -/
theorem find?_updateBidStatus (l : List Bid) (i : Nat) (s : String) (j : Nat) :
    (updateBidStatus l i s).find? (fun b => b.id == j) =
      Option.map (fun b => if b.id == i then { b with status := s } else b)
        (l.find? (fun b => b.id == j)) := by
  unfold updateBidStatus
  exact find?_map_key Bid.id _ (fun b => by split <;> rfl) l j

/-- Looking up a bid id in a bids list after `rejectPendingSiblings`. -/
theorem find?_rejectPendingSiblings (l : List Bid) (pid i j : Nat) :
    (rejectPendingSiblings l pid i).find? (fun b => b.id == j) =
      Option.map (fun b =>
          if b.projectId == pid && !(b.id == i) && b.status == "pending"
          then { b with status := "rejected" } else b)
        (l.find? (fun b => b.id == j)) := by
  unfold rejectPendingSiblings
  exact find?_map_key Bid.id _ (fun b => by split <;> rfl) l j

/-- Looking up a project id in a projects list after `updateProjectAssign`. -/
theorem find?_updateProjectAssign (l : List Project) (pid d j : Nat) :
    (updateProjectAssign l pid d).find? (fun p => p.id == j) =
      Option.map (fun p => if p.id == pid
          then { p with status := "in progress", assignedTo := some d }
          else p)
        (l.find? (fun p => p.id == j)) := by
  unfold updateProjectAssign
  exact find?_map_key Project.id _ (fun p => by split <;> rfl) l j

/-- A successful bid lookup returns a bid carrying the looked-up id. -/
theorem findBid_eq_id {st : St} {i : Nat} {b : Bid}
    (h : findBid st i = some b) : b.id = i := by
  unfold findBid at h
  simpa using List.find?_some h

/-- A successful project lookup returns a project carrying the looked-up
id. -/
theorem findProject_eq_id {st : St} {i : Nat} {p : Project}
    (h : findProject st i = some p) : p.id = i := by
  unfold findProject at h
  simpa using List.find?_some h

/-- Characterization of a successful accept: the bid is looked up, the
owner check passes, and the three mutations run. -/
theorem decideBid_accept_run (st : St) (bidId owner : Nat) (bid : Bid)
    (p : Project) (hb : findBid st bidId = some bid)
    (hp : findProject st bid.projectId = some p)
    (how : p.createdBy = owner) :
    decideBid st bidId owner "accepted" =
      (200,
        ⟨updateProjectAssign st.projects bid.projectId bid.developerId,
         rejectPendingSiblings (updateBidStatus st.bids bidId "accepted")
           bid.projectId bidId⟩) := by
  simp [decideBid, hb, hp, how]

/-- Characterization of a successful reject: only the bid's status is
overwritten. -/
theorem decideBid_reject_run (st : St) (bidId owner : Nat) (bid : Bid)
    (p : Project) (hb : findBid st bidId = some bid)
    (hp : findProject st bid.projectId = some p)
    (how : p.createdBy = owner) :
    decideBid st bidId owner "rejected" =
      (200, { st with bids := updateBidStatus st.bids bidId "rejected" }) := by
  simp [decideBid, hb, hp, how]

/-- `badState` is reachable through the four-request sequence above. -/
theorem reachable_badState : Reachable badState := by
  have h0 : Reachable st0 := Reachable.init _ (by decide) (by decide)
  have h1 : Reachable st1 :=
    Reachable.placeStep 1 20 100 h0 (by decide) (by decide)
  have h2 : Reachable st2 :=
    Reachable.placeStep 1 21 101 h1 (by decide) (by decide)
  have h3 : Reachable st3 :=
    Reachable.decideStep 100 10 "accepted" h2 (by decide)
  exact Reachable.decideStep 101 10 "accepted" h3 (by decide)

/-- C1: the single-acceptance invariant fails on the code.  The reachable
state `badState` — produced by placing two bids and then accepting first
bid 100 and later bid 101 — holds two accepted bids referencing project 1,
because the accept handler never checks the bid's or the project's current
status before the cascade, and the cascade only rejects pending siblings. -/
theorem c1_two_accepted_bids_reachable :
    Reachable badState ∧ (acceptedBidsFor badState 1).length = 2 :=
  ⟨reachable_badState, by decide⟩

/-- C2: the acceptance/assignment invariant fails on the code.  In the
reachable state `badState`, bid 100 is accepted while its parent project 1
has `assignedTo = 21 ≠ 20`, because the second acceptance rewrote the
project's assignment without touching the previously accepted bid. -/
theorem c2_accepted_bid_assignment_mismatch :
    Reachable badState ∧
    ∃ b, b ∈ badState.bids ∧ b.status = "accepted" ∧
      ∃ p, findProject badState b.projectId = some p ∧
        p.assignedTo ≠ some b.developerId :=
  ⟨reachable_badState,
    ⟨100, 1, 20, "accepted"⟩, by decide, by decide,
    ⟨1, 10, "in progress", some 21⟩, by decide, by decide⟩

/-- C4: sequential acceptance of two different bids on the same project —
the coarsest interleaving of two concurrent accept requests — makes both
requests succeed with 200 and leaves two accepted bids: there is no
per-project serialization or conflict guard, so the second caller neither
fails with Conflict nor is stopped by the project already being assigned. -/
theorem c4_both_accepts_succeed :
    decideBid st2 100 10 "accepted" = (200, st3) ∧
    decideBid st3 101 10 "accepted" = (200, badState) ∧
    (acceptedBidsFor badState 1).length = 2 := by
  refine ⟨by decide, by decide, by decide⟩

/-- C3: accepting pending bid `b1` on a project the requester owns answers
200, marks `b1` accepted, rejects the pending sibling bids `b2`, `b3`, moves
the project to "in progress" assigned to `b1`'s developer, and leaves every
sibling that was already accepted or rejected untouched. -/
theorem c3_accept_cascade (st : St) (owner : Nat) (b1 b2 b3 : Bid)
    (p : Project) (hnd : (st.bids.map Bid.id).Nodup)
    (hm1 : b1 ∈ st.bids) (hm2 : b2 ∈ st.bids) (hm3 : b3 ∈ st.bids)
    (h21 : b2.id ≠ b1.id) (h31 : b3.id ≠ b1.id) (h23 : b2.id ≠ b3.id)
    (hq2 : b2.projectId = b1.projectId) (hq3 : b3.projectId = b1.projectId)
    (hs1 : b1.status = "pending") (hs2 : b2.status = "pending")
    (hs3 : b3.status = "pending")
    (hp : findProject st b1.projectId = some p)
    (how : p.createdBy = owner) :
    (decideBid st b1.id owner "accepted").fst = 200 ∧
    findBid (decideBid st b1.id owner "accepted").snd b1.id =
      some { b1 with status := "accepted" } ∧
    findBid (decideBid st b1.id owner "accepted").snd b2.id =
      some { b2 with status := "rejected" } ∧
    findBid (decideBid st b1.id owner "accepted").snd b3.id =
      some { b3 with status := "rejected" } ∧
    findProject (decideBid st b1.id owner "accepted").snd b1.projectId =
      some { p with status := "in progress",
                    assignedTo := some b1.developerId } ∧
    ∀ b ∈ st.bids, b.projectId = b1.projectId →
      (b.status = "accepted" ∨ b.status = "rejected") →
      findBid (decideBid st b1.id owner "accepted").snd b.id = some b := by
  have hfb1 : findBid st b1.id = some b1 :=
    find?_key_of_mem_nodup Bid.id hm1 hnd
  have hfb1' : List.find? (fun x => x.id == b1.id) st.bids = some b1 := hfb1
  have hfb2 : List.find? (fun x => x.id == b2.id) st.bids = some b2 :=
    find?_key_of_mem_nodup Bid.id hm2 hnd
  have hfb3 : List.find? (fun x => x.id == b3.id) st.bids = some b3 :=
    find?_key_of_mem_nodup Bid.id hm3 hnd
  have hp' : List.find? (fun x => x.id == b1.projectId) st.projects = some p :=
    hp
  have hrun := decideBid_accept_run st b1.id owner b1 p hfb1 hp how
  rw [hrun]
  refine ⟨rfl, ?_, ?_, ?_, ?_, ?_⟩
  · simp only [findBid, find?_rejectPendingSiblings, find?_updateBidStatus]
    rw [hfb1']
    simp
  · simp only [findBid, find?_rejectPendingSiblings, find?_updateBidStatus]
    rw [hfb2]
    simp [h21, hq2, hs2]
  · simp only [findBid, find?_rejectPendingSiblings, find?_updateBidStatus]
    rw [hfb3]
    simp [h31, hq3, hs3]
  · simp only [findProject, find?_updateProjectAssign]
    rw [hp']
    simp [findProject_eq_id hp]
  · intro b hmb hbq hterm
    have hfb : List.find? (fun x => x.id == b.id) st.bids = some b :=
      find?_key_of_mem_nodup Bid.id hmb hnd
    have hne : b.id ≠ b1.id := by
      intro he
      rw [he, hfb1'] at hfb
      have hbe : b1 = b := by injection hfb
      rw [← hbe] at hterm
      rcases hterm with h | h <;> rw [hs1] at h <;>
        exact absurd h (by decide)
    simp only [findBid, find?_rejectPendingSiblings, find?_updateBidStatus]
    rw [hfb]
    rcases hterm with h | h <;> simp [hne, h]

/-- Witness for C3 at the concrete state `stW3`: owner 10 accepts bid 100;
bids 101 and 102 get rejected, bid 103 (already rejected) is untouched, and
project 1 is assigned to developer 20. -/
theorem c3_accept_cascade_witness :
    (decideBid stW3 100 10 "accepted").fst = 200 ∧
    findBid (decideBid stW3 100 10 "accepted").snd 100 =
      some ⟨100, 1, 20, "accepted"⟩ ∧
    findBid (decideBid stW3 100 10 "accepted").snd 101 =
      some ⟨101, 1, 21, "rejected"⟩ ∧
    findBid (decideBid stW3 100 10 "accepted").snd 102 =
      some ⟨102, 1, 22, "rejected"⟩ ∧
    findProject (decideBid stW3 100 10 "accepted").snd 1 =
      some ⟨1, 10, "in progress", some 20⟩ ∧
    ∀ b ∈ stW3.bids, b.projectId = 1 →
      (b.status = "accepted" ∨ b.status = "rejected") →
      findBid (decideBid stW3 100 10 "accepted").snd b.id = some b :=
  c3_accept_cascade stW3 10
    ⟨100, 1, 20, "pending"⟩ ⟨101, 1, 21, "pending"⟩ ⟨102, 1, 22, "pending"⟩
    ⟨1, 10, "open", none⟩ (by decide) (by decide) (by decide) (by decide)
    (by decide) (by decide) (by decide) (by decide) (by decide) (by decide)
    (by decide) (by decide) (by decide) (by decide)

/-- C7: rejecting a pending bid on a project the requester owns answers 200,
overwrites only that bid's status with "rejected", and leaves the projects
collection and every other bid record unchanged. -/
theorem c7_reject_frame (st : St) (bidId owner : Nat) (bid : Bid)
    (p : Project) (hb : findBid st bidId = some bid)
    (hs : bid.status = "pending")
    (hp : findProject st bid.projectId = some p)
    (how : p.createdBy = owner) :
    (decideBid st bidId owner "rejected").fst = 200 ∧
    (decideBid st bidId owner "rejected").snd.projects = st.projects ∧
    findBid (decideBid st bidId owner "rejected").snd bidId =
      some { bid with status := "rejected" } ∧
    ∀ b ∈ st.bids, b.id ≠ bidId →
      b ∈ (decideBid st bidId owner "rejected").snd.bids := by
  have hrun := decideBid_reject_run st bidId owner bid p hb hp how
  rw [hrun]
  have hb' : List.find? (fun x => x.id == bidId) st.bids = some bid := hb
  refine ⟨rfl, rfl, ?_, ?_⟩
  · simp only [findBid, find?_updateBidStatus]
    rw [hb']
    simp [findBid_eq_id hb]
  · intro b hmb hne
    simp only [updateBidStatus]
    exact List.mem_map.mpr ⟨b, hmb, by simp [hne]⟩

/-- Witness for C7 at the concrete state `st2`: owner 10 rejects bid 100;
project 1 and bid 101 are untouched. -/
theorem c7_reject_frame_witness :
    (decideBid st2 100 10 "rejected").fst = 200 ∧
    (decideBid st2 100 10 "rejected").snd.projects = st2.projects ∧
    findBid (decideBid st2 100 10 "rejected").snd 100 =
      some ⟨100, 1, 20, "rejected"⟩ ∧
    ∀ b ∈ st2.bids, b.id ≠ 100 →
      b ∈ (decideBid st2 100 10 "rejected").snd.bids :=
  c7_reject_frame st2 100 10 ⟨100, 1, 20, "pending"⟩ ⟨1, 10, "open", none⟩
    (by decide) (by decide) (by decide) (by decide)

/-- C5 counterexample: in `cst5` bid 100 is already accepted (terminal),
yet a later `decideBid(.., reject)` by the owner succeeds and reverses the
bid's status from accepted to rejected — the handler never inspects the
bid's current status. -/
theorem c5_counterexample :
    findBid cst5 100 = some ⟨100, 1, 20, "accepted"⟩ ∧
    decideBid cst5 100 10 "rejected" =
      (200, ⟨[⟨1, 10, "in progress", some 20⟩],
             [⟨100, 1, 20, "rejected"⟩]⟩) := by
  decide

/-- C5 amended: `decideBid` has no transition guard at all — whenever the
decision string is valid, the bid exists, its project exists, and the
requester owns the project, the call answers 200 and overwrites the bid's
status with the decision, whatever the bid's current (possibly terminal)
status was. -/
theorem c5_amended_no_status_guard (st : St) (bidId owner : Nat)
    (decision : String) (bid : Bid) (p : Project)
    (hd : decision = "accepted" ∨ decision = "rejected")
    (hb : findBid st bidId = some bid)
    (hp : findProject st bid.projectId = some p)
    (how : p.createdBy = owner) :
    (decideBid st bidId owner decision).fst = 200 ∧
    findBid (decideBid st bidId owner decision).snd bidId =
      some { bid with status := decision } := by
  have hb' : List.find? (fun x => x.id == bidId) st.bids = some bid := hb
  rcases hd with rfl | rfl
  · rw [decideBid_accept_run st bidId owner bid p hb hp how]
    refine ⟨rfl, ?_⟩
    simp only [findBid, find?_rejectPendingSiblings, find?_updateBidStatus]
    rw [hb']
    simp [findBid_eq_id hb]
  · rw [decideBid_reject_run st bidId owner bid p hb hp how]
    refine ⟨rfl, ?_⟩
    simp only [findBid, find?_updateBidStatus]
    rw [hb']
    simp [findBid_eq_id hb]

/-- Witness for the amended C5 at the concrete state `cst5`: re-accepting
the already-accepted bid 100 succeeds and rewrites its status. -/
theorem c5_amended_witness :
    (decideBid cst5 100 10 "accepted").fst = 200 ∧
    findBid (decideBid cst5 100 10 "accepted").snd 100 =
      some ⟨100, 1, 20, "accepted"⟩ :=
  c5_amended_no_status_guard cst5 100 10 "accepted"
    ⟨100, 1, 20, "accepted"⟩ ⟨1, 10, "in progress", some 20⟩
    (Or.inl rfl) (by decide) (by decide) (by decide)

/-- C6 counterexample: in `stC6` bid 100 references project 1 which is not
stored; `.populate('projectId')` yields `null` and the ownership check
throws, so the handler answers 500 (Internal), not 403 (Forbidden). -/
theorem c6_counterexample :
    findBid stC6 100 = some ⟨100, 1, 20, "pending"⟩ ∧
    findProject stC6 1 = none ∧
    decideBid stC6 100 10 "accepted" = (500, stC6) ∧
    (500 : Nat) ≠ 403 := by
  decide

/-- C6 amended: with a valid decision and an existing bid, a dangling parent
project makes the call fail with 500 (Internal) and an existing project
owned by someone other than the requester makes it fail with 403
(Forbidden); in both cases the
store is left unchanged. -/
theorem c6_amended_forbidden_or_internal (st : St) (bidId requesterId : Nat)
    (decision : String) (bid : Bid)
    (hd : decision = "accepted" ∨ decision = "rejected")
    (hb : findBid st bidId = some bid) :
    (findProject st bid.projectId = none →
      decideBid st bidId requesterId decision = (500, st)) ∧
    (∀ p, findProject st bid.projectId = some p →
      p.createdBy ≠ requesterId →
      decideBid st bidId requesterId decision = (403, st)) := by
  constructor
  · intro hnone
    rcases hd with rfl | rfl <;> simp [decideBid, hb, hnone]
  · intro p hp hne
    rcases hd with rfl | rfl <;> simp [decideBid, hb, hp, hne]

/-- Witness for the amended C6: requester 11 does not own project 1, so the
decision on bid 100 in `st1` fails with 403 and the state is unchanged. -/
theorem c6_amended_witness :
    decideBid st1 100 11 "accepted" = (403, st1) :=
  (c6_amended_forbidden_or_internal st1 100 11 "accepted"
      ⟨100, 1, 20, "pending"⟩ (Or.inl rfl) (by decide)).2
    ⟨1, 10, "open", none⟩ (by decide) (by decide)

/-- C8: `placeBid` answers 404 when the project is missing, 400 when the
project is not open, and 409 when the developer already holds a bid on the
project — in each case leaving the store unchanged — and otherwise persists
exactly one new pending bid and answers 201. -/
theorem c8_placeBid_cases (st : St) (pid did nid : Nat) :
    (findProject st pid = none → placeBid st pid did nid = (404, st)) ∧
    (∀ p, findProject st pid = some p → p.status ≠ "open" →
      placeBid st pid did nid = (400, st)) ∧
    (∀ p b, findProject st pid = some p → p.status = "open" →
      List.find? (fun x => x.projectId == pid && x.developerId == did)
        st.bids = some b →
      placeBid st pid did nid = (409, st)) ∧
    (∀ p, findProject st pid = some p → p.status = "open" →
      List.find? (fun x => x.projectId == pid && x.developerId == did)
        st.bids = none →
      placeBid st pid did nid =
        (201, { st with bids :=
                  st.bids ++ [⟨nid, pid, did, "pending"⟩] })) := by
  refine ⟨?_, ?_, ?_, ?_⟩
  · intro hnone
    simp [placeBid, hnone]
  · intro p hp hno
    simp [placeBid, hp, hno]
  · intro p b hp hopen hdup
    simp [placeBid, hp, hopen, hdup]
  · intro p hp hopen hfree
    simp [placeBid, hp, hopen, hfree]

/-- Witness for C8 at the concrete state `st1`: developer 20 already holds
bid 100 on the open project 1, so a second placement fails with 409 and the
store is unchanged. -/
theorem c8_placeBid_witness : placeBid st1 1 20 101 = (409, st1) :=
  (c8_placeBid_cases st1 1 20 101).2.2.1 ⟨1, 10, "open", none⟩
    ⟨100, 1, 20, "pending"⟩ (by decide) (by decide) (by decide)

/-- C10: the project-open check runs before the duplicate-bid check: a
developer who already holds a bid on a non-open project gets 400
(InvalidState), never 409, and a 409 answer implies the project exists and
is open. -/
theorem c10_invalidState_precedes_conflict (st : St) (pid did nid : Nat) :
    (∀ p b, findProject st pid = some p → p.status ≠ "open" →
      List.find? (fun x => x.projectId == pid && x.developerId == did)
        st.bids = some b →
      placeBid st pid did nid = (400, st)) ∧
    ((placeBid st pid did nid).fst = 409 →
      ∃ p, findProject st pid = some p ∧ p.status = "open") := by
  constructor
  · intro p b hp hno hdup
    simp [placeBid, hp, hno]
  · intro h9
    unfold placeBid at h9
    cases hf : findProject st pid with
    | none => simp [hf] at h9
    | some p =>
      by_cases ho : p.status = "open"
      · exact ⟨p, rfl, ho⟩
      · simp [hf, ho] at h9

/-- Witness for C10 at the concrete state `wst10`: developer 20 already
holds bid 100 on the completed project 1, and re-placing answers 400, not
409. -/
theorem c10_witness : placeBid wst10 1 20 101 = (400, wst10) :=
  (c10_invalidState_precedes_conflict wst10 1 20 101).1
    ⟨1, 10, "completed", none⟩ ⟨100, 1, 20, "pending"⟩
    (by decide) (by decide) (by decide)

/-- Re-running the project assignment with the same values is a no-op. -/
theorem updateProjectAssign_idem (l : List Project) (pid d : Nat) :
    updateProjectAssign (updateProjectAssign l pid d) pid d =
      updateProjectAssign l pid d := by
  unfold updateProjectAssign
  rw [List.map_map]
  apply List.map_congr_left
  intro a _
  by_cases h : (a.id == pid) = true <;> simp [Function.comp, h]

/-- Re-running the pending-sibling cascade is a no-op: the first pass left
no pending sibling behind. -/
theorem rejectPendingSiblings_idem (l : List Bid) (pid i : Nat) :
    rejectPendingSiblings (rejectPendingSiblings l pid i) pid i =
      rejectPendingSiblings l pid i := by
  unfold rejectPendingSiblings
  rw [List.map_map]
  apply List.map_congr_left
  intro b _
  by_cases h : (b.projectId == pid && !(b.id == i) && b.status == "pending")
      = true <;>
    simp [Function.comp, h]

/-- Rewriting the decided bid's status after the cascade with the same
value is a no-op. -/
theorem updateBidStatus_after_cascade (l : List Bid) (pid i : Nat)
    (s : String) :
    updateBidStatus (rejectPendingSiblings (updateBidStatus l i s) pid i)
        i s =
      rejectPendingSiblings (updateBidStatus l i s) pid i := by
  unfold updateBidStatus rejectPendingSiblings
  simp only [List.map_map]
  apply List.map_congr_left
  intro b _
  by_cases h : (b.id == i) = true <;>
    by_cases hq : (b.projectId == pid) = true <;>
    by_cases hpe : (b.status == "pending") = true <;>
    simp [Function.comp, h, hq, hpe]

/-- C9: accepting an already-accepted bid again is idempotent — the second
call also answers 200 and returns the store unchanged: the status rewrite
and the project assignment rewrite identical values and the cascade finds
no pending sibling. -/
theorem c9_accept_idempotent (st st' : St) (bidId owner : Nat)
    (h : decideBid st bidId owner "accepted" = (200, st')) :
    decideBid st' bidId owner "accepted" = (200, st') := by
  unfold decideBid at h
  rw [if_pos (Or.inl rfl)] at h
  cases hb : findBid st bidId with
  | none => simp [hb] at h
  | some bid =>
    cases hp : findProject st bid.projectId with
    | none => simp [hb, hp] at h
    | some proj =>
      by_cases hcw : proj.createdBy = owner
      · simp [hb, hp, hcw] at h
        have hst : st' =
            ⟨updateProjectAssign st.projects bid.projectId bid.developerId,
             rejectPendingSiblings (updateBidStatus st.bids bidId "accepted")
               bid.projectId bidId⟩ := h.symm
        have hid : bid.id = bidId := findBid_eq_id hb
        have hb' : List.find? (fun x => x.id == bidId) st.bids = some bid :=
          hb
        have hp' : List.find? (fun x => x.id == bid.projectId) st.projects =
            some proj := hp
        have hb2 : findBid st' bidId =
            some { bid with status := "accepted" } := by
          rw [hst]
          simp only [findBid, find?_rejectPendingSiblings,
            find?_updateBidStatus]
          rw [hb']
          simp [hid]
        have hp2 : findProject st' bid.projectId =
            some { proj with status := "in progress", assignedTo := some bid.developerId } := by
          rw [hst]
          simp only [findProject, find?_updateProjectAssign]
          rw [hp']
          simp [findProject_eq_id hp]
        have hrun := decideBid_accept_run st' bidId owner
          { bid with status := "accepted" }
          { proj with status := "in progress", assignedTo := some bid.developerId }
          hb2 hp2 hcw
        rw [hrun, hst]
        rw [updateProjectAssign_idem, updateBidStatus_after_cascade,
          rejectPendingSiblings_idem]
      · simp [hb, hp, hcw] at h

/-- Witness for C9: from `st2`, owner 10 accepts bid 100 producing `st3`;
re-accepting bid 100 in `st3` answers 200 and leaves `st3` unchanged. -/
theorem c9_accept_idempotent_witness :
    decideBid st3 100 10 "accepted" = (200, st3) :=
  c9_accept_idempotent st2 st3 100 10 (by decide)

end DevConnect
